import Mathlib

/-!
Shallow embedding of the pyFDTR core (pyFDTR/domain.py, pyFDTR/fouriermodel.py,
pyFDTR/util.py) and verification of the frozen claims about it.

Conventions:
  * sympy complex expressions in the layer/interface transfer matrices are
    embedded as values of `Matrix (Fin 2) (Fin 2) ℂ`, parameterized by the
    real symbols `eps`, `eta`, `omega` that the Python code keeps symbolic;
  * Python object attributes are embedded as structure fields; an attribute
    that may be absent (never assigned) is an `Option`, with `none` for
    "not set on the object";
  * Python `list` indexing (including the negative-index wrap-around) and
    slicing are embedded by `pyIdx` / `pySlice` below.
-/

namespace PyFDTR

noncomputable section

open Complex

/-- 2x2 complex matrix, the carrier of every Fourier transfer matrix. -/
abbrev Mat2 := Matrix (Fin 2) (Fin 2) ℂ

/-- Principal complex square root, the meaning of sympy's `sqrt` on the
complex-valued argument of `mu` in `Layer.getFourier_Matrix`. -/
def csqrt (z : ℂ) : ℂ := z ^ ((1 : ℂ) / 2)

/-- State of a `Layer` object (domain.py, class `Layer`): the fields read by
`getFourier_Matrix` together with `density` and `temperature` set by
`__init__`. -/
structure LayerS where
  thickness : ℝ
  cp : ℝ
  kxx : ℝ
  kyy : ℝ
  kxy : ℝ
  kzz : ℝ
  density : ℝ
  temperature : ℝ

/-- `mu` of `Layer.getFourier_Matrix` (domain.py line 122):
`sqrt((kxx*eps*eps + kzz*eta*eta + 2.0*kxy*eps*eta + i*cp*omega)/kzz)`. -/
def layerMu (l : LayerS) (eps eta omega : ℝ) : ℂ :=
  csqrt (((l.kxx : ℂ) * eps * eps + (l.kzz : ℂ) * eta * eta
      + 2 * (l.kxy : ℂ) * eps * eta + Complex.I * (l.cp : ℂ) * omega) / (l.kzz : ℂ))

/-- `Layer.getFourier_Matrix` (domain.py lines 118-124). -/
def layerFourierMatrix (l : LayerS) (eps eta omega : ℝ) : Mat2 :=
  let mu := layerMu l eps eta omega
  !![Complex.cosh (mu * (l.thickness : ℂ)),
      -(1 / ((l.kzz : ℂ) * mu)) * Complex.sinh (mu * (l.thickness : ℂ));
    -((l.kzz : ℂ) * mu) * Complex.sinh (mu * (l.thickness : ℂ)),
      Complex.cosh (mu * (l.thickness : ℂ))]

/-- The layer matrix as the spec states it (spec section 4.1), with
`μ = sqrt((kxx·ε² + kzz·η² + 2·kxy·ε·η + i·ω·cp)/kzz)` and
`L(d) = [[cosh(μ·d), −sinh(μ·d)/(kzz·μ)], [−kzz·μ·sinh(μ·d), cosh(μ·d)]]`.
Written from the spec's words, to be compared with `layerFourierMatrix`. -/
def specLayerMatrix (l : LayerS) (eps eta omega : ℝ) : Mat2 :=
  let mu := csqrt (((l.kxx : ℂ) * eps ^ 2 + (l.kzz : ℂ) * eta ^ 2
      + 2 * (l.kxy : ℂ) * eps * eta + Complex.I * omega * (l.cp : ℂ)) / (l.kzz : ℂ))
  !![Complex.cosh (mu * (l.thickness : ℂ)),
      -(Complex.sinh (mu * (l.thickness : ℂ)) / ((l.kzz : ℂ) * mu));
    -((l.kzz : ℂ) * mu) * Complex.sinh (mu * (l.thickness : ℂ)),
      Complex.cosh (mu * (l.thickness : ℂ))]

/-- An element of a heat path: a `Layer` or a `LayerInterface` (domain.py).
A `Layer` object has no `g` field of its own, but Python lets
`set_interface_condu` create one dynamically; `gAttr` models that dynamic
attribute (`none` = never assigned).  A `LayerInterface` carries its
conductance `g`; its two material-name bookkeeping fields are not modelled
(nothing computed here reads them). -/
inductive Elem where
  | layer (l : LayerS) (gAttr : Option ℝ)
  | interface (g : ℝ)

/-- `getFourier_Matrix` of either heat-path element: a layer uses
`Layer.getFourier_Matrix`; a `LayerInterface` returns `[[1, -1/g],[0,1]]`
(domain.py lines 141-143). -/
def Elem.fourier : Elem → ℝ → ℝ → ℝ → Mat2
  | .layer l _, eps, eta, omega => layerFourierMatrix l eps eta omega
  | .interface g, _, _, _ => !![1, -1 / (g : ℂ); 0, 1]

/-- State of a `Domain` object (domain.py, class `Domain`): the heat paths,
the temperature, the `substrate_defined` flag, and the `matrix` /
`topmatrix` attributes (`none` = attribute never assigned). -/
structure DomainState where
  heat_path : List Elem
  top_heat_path : List Elem
  temperature : ℝ
  substrate_defined : Bool
  matrix : Option Mat2
  topmatrix : Option Mat2

/-- `Domain.calc_transfer_matrix` (domain.py lines 63-68): starts from the
2x2 identity and right-multiplies by each heat-path element's matrix in
order, storing the result in the `matrix` attribute. -/
def calc_transfer_matrix (eps eta omega : ℝ) (s : DomainState) : DomainState :=
  { s with
    matrix := some (s.heat_path.foldl (fun m e => m * e.fourier eps eta omega) (1 : Mat2)) }

/-- `Domain.calc_top_transfer_matrix` (domain.py lines 70-75): the same fold
over `top_heat_path`, but the result is assigned to `self.matrix`
(line 75), not to a `topmatrix` attribute. -/
def calc_top_transfer_matrix (eps eta omega : ℝ) (s : DomainState) : DomainState :=
  { s with
    matrix := some (s.top_heat_path.foldl (fun m e => m * e.fourier eps eta omega) (1 : Mat2)) }

/-- Folding `m * fourier e` from the identity is the ordered product of the
element matrices (heat-path order, first element leftmost). -/
theorem foldl_mul_fourier (hp : List Elem) (eps eta omega : ℝ) :
    hp.foldl (fun m e => m * e.fourier eps eta omega) (1 : Mat2)
      = (hp.map (fun e => e.fourier eps eta omega)).prod := by
  rw [List.prod_eq_foldl, List.foldl_map]

/-- C1: for every layer with thickness d > 0, the layer's Fourier transfer
matrix equals the spec's matrix `[[cosh(mu*d), -sinh(mu*d)/(kzz*mu)],
[-kzz*mu*sinh(mu*d), cosh(mu*d)]]` with
`mu = sqrt((kxx*eps^2 + kzz*eta^2 + 2*kxy*eps*eta + i*omega*cp)/kzz)`,
for all spatial frequencies (eps, eta) and angular frequency omega. -/
theorem layer_fourier_matrix_matches_spec (l : LayerS) (eps eta omega : ℝ)
    (hd : 0 < l.thickness) :
    layerFourierMatrix l eps eta omega = specLayerMatrix l eps eta omega := by
  unfold layerFourierMatrix specLayerMatrix layerMu
  have harg : ((l.kxx : ℂ) * eps * eps + (l.kzz : ℂ) * eta * eta
        + 2 * (l.kxy : ℂ) * eps * eta + Complex.I * (l.cp : ℂ) * omega) / (l.kzz : ℂ)
      = ((l.kxx : ℂ) * (eps : ℂ) ^ 2 + (l.kzz : ℂ) * (eta : ℂ) ^ 2
        + 2 * (l.kxy : ℂ) * eps * eta + Complex.I * (omega : ℂ) * (l.cp : ℂ)) / (l.kzz : ℂ) := by
    ring
  rw [harg]
  ext i j
  fin_cases i <;> fin_cases j <;>
    simp [Matrix.cons_val_zero, Matrix.cons_val_one, Matrix.head_cons] <;> ring

/-- Concrete layer used by witnesses. -/
def wLayer : LayerS := ⟨1, 1, 1, 1, 0, 1, 1, 300⟩

/-- Witness for C1 at a concrete layer and frequencies. -/
theorem layer_fourier_matrix_matches_spec_witness :
    0 < wLayer.thickness ∧ layerFourierMatrix wLayer 0 0 0 = specLayerMatrix wLayer 0 0 0 :=
  ⟨by norm_num [wLayer], layer_fourier_matrix_matches_spec wLayer 0 0 0 (by norm_num [wLayer])⟩

/-- C2: `calc_transfer_matrix` computes the ordered (non-commutative)
product of the heat-path elements' matrices starting from the identity,
substrate (head of the list) first; for a heat path holding only a
substrate layer the composite matrix is exactly that layer's matrix. -/
theorem calc_transfer_matrix_ordered_product (s : DomainState) (eps eta omega : ℝ) :
    (calc_transfer_matrix eps eta omega s).matrix
        = some ((s.heat_path.map (fun e => e.fourier eps eta omega)).prod)
      ∧ ∀ (l : LayerS) (g : Option ℝ),
        (calc_transfer_matrix eps eta omega { s with heat_path := [Elem.layer l g] }).matrix
          = some ((Elem.layer l g).fourier eps eta omega) := by
  refine ⟨?_, ?_⟩
  · simp [calc_transfer_matrix, foldl_mul_fourier]
  · intro l g
    simp [calc_transfer_matrix]

/-- The raw angle computed by `get_phase` (fouriermodel.py lines 178, 191,
204): `180*arctan(Im(r)/Re(r))/pi`, in degrees. -/
def rawPhase (r : ℂ) : ℝ := 180 * Real.arctan (r.im / r.re) / Real.pi

/-- The fold applied by `get_phase` to the raw angle (fouriermodel.py lines
207-210): a negative angle is returned as-is, otherwise 180 is subtracted. -/
def get_phase_reduce (r : ℂ) : ℝ :=
  if rawPhase r < 0 then rawPhase r else rawPhase r - 180

/-- C3: for a complex integration result `r` with `Re(r) != 0`, `get_phase`
reduces `r` to `atan(Im(r)/Re(r))*180/pi` and folds: a negative raw angle is
returned as-is, otherwise the raw angle minus 180 is returned; every value
so returned lies in [-180, 0). -/
theorem get_phase_reduce_fold_range (r : ℂ) (h : r.re ≠ 0) :
    (rawPhase r < 0 → get_phase_reduce r = rawPhase r)
      ∧ (0 ≤ rawPhase r → get_phase_reduce r = rawPhase r - 180)
      ∧ -180 ≤ get_phase_reduce r ∧ get_phase_reduce r < 0 := by
  have hpi := Real.pi_pos
  have h1 : Real.arctan (r.im / r.re) < Real.pi / 2 := Real.arctan_lt_pi_div_two _
  have h2 : -(Real.pi / 2) < Real.arctan (r.im / r.re) := Real.neg_pi_div_two_lt_arctan _
  have hub : rawPhase r < 90 := by
    unfold rawPhase
    rw [div_lt_iff hpi]
    nlinarith
  have hlb : -90 < rawPhase r := by
    unfold rawPhase
    rw [lt_div_iff hpi]
    nlinarith
  refine ⟨fun hc => by rw [get_phase_reduce, if_pos hc],
    fun hc => by rw [get_phase_reduce, if_neg (not_lt.mpr hc)], ?_, ?_⟩ <;>
    (unfold get_phase_reduce; by_cases hc : rawPhase r < 0)
  · rw [if_pos hc]; linarith
  · rw [if_neg hc]; linarith
  · rw [if_pos hc]; exact hc
  · rw [if_neg hc]; linarith

/-- Witness for C3 at the concrete result r = 1 - i. -/
theorem get_phase_reduce_fold_range_witness :
    ((⟨1, -1⟩ : ℂ).re ≠ 0)
      ∧ -180 ≤ get_phase_reduce ⟨1, -1⟩ ∧ get_phase_reduce ⟨1, -1⟩ < 0 := by
  have h : ((⟨1, -1⟩ : ℂ)).re ≠ 0 := by
    show (1 : ℝ) ≠ 0
    norm_num
  exact ⟨h, (get_phase_reduce_fold_range ⟨1, -1⟩ h).2.2⟩

/-- Numeric backend selected for a `FourierModelFDTR` instance. -/
inductive Backend where
  | numpy
  | mpmath
deriving DecidableEq

/-- Description of the quadrature call `get_phase` issues: whether it is the
2-D (beam-offset) case, the integration bounds (1-D: `[lower, upper]`;
2-D: the square `[lower, upper] x [lower, upper]`), the relative-error
tolerance passed to the integrator (`none` when the call passes no
`epsrel`, as `mpmath.quad` does), and whether real and imaginary parts are
integrated by separate quadrature calls. -/
structure QuadSpec where
  twoD : Bool
  lower : ℝ
  upper : ℝ
  epsrel : Option ℝ
  separateParts : Bool
deriving DecidableEq

/-- The quadrature call `get_phase` makes for each backend and beam offset
(fouriermodel.py lines 171-202): numpy radial uses
`complex_quadrature(..., 0.0, 20/sqrt(rpump^2+rprobe^2), epsrel=1e-10)`
(util.py lines 48-55 runs `quad` on real and imaginary parts separately);
numpy offset uses two `dblquad` calls (real and imaginary) over
`[-U, U] x [-U, U]` with the same `U` at `epsrel=1e-6`; mpmath radial uses
`mpmath.quad(..., [0.0, U])` with no `epsrel`; mpmath offset uses
`mpmath.quad` over `[-U', U'] x [-U', U']` with
`U' = 20/sqrt(rpump^2 + (rprobe+beamoffset)^2)` and no `epsrel`. -/
def integrationPlan (backend : Backend) (beamoffset rpump rprobe : ℝ) : QuadSpec :=
  match backend with
  | .numpy =>
    if beamoffset = 0 then
      { twoD := false, lower := 0,
        upper := 20 / Real.sqrt (rpump * rpump + rprobe * rprobe),
        epsrel := some 1e-10, separateParts := true }
    else
      { twoD := true,
        lower := -(20 / Real.sqrt (rpump * rpump + rprobe * rprobe)),
        upper := 20 / Real.sqrt (rpump * rpump + rprobe * rprobe),
        epsrel := some 1e-6, separateParts := true }
  | .mpmath =>
    if beamoffset = 0 then
      { twoD := false, lower := 0,
        upper := 20 / Real.sqrt (rpump * rpump + rprobe * rprobe),
        epsrel := none, separateParts := false }
    else
      { twoD := true,
        lower := -(20 / Real.sqrt (rpump * rpump + (rprobe + beamoffset) * (rprobe + beamoffset))),
        upper := 20 / Real.sqrt (rpump * rpump + (rprobe + beamoffset) * (rprobe + beamoffset)),
        epsrel := none, separateParts := false }

/-- The quadrature call as the claim states it, for either backend: radial
from 0 to `U = 20/sqrt(rpump^2 + rprobe^2)` at relative tolerance 1e-10 on
real and imaginary parts independently; offset over `[-U, U] x [-U, U]`
with that same `U`, real and imaginary parts independently, at relative
tolerance 1e-6.  Written from the claim's words, to be compared with
`integrationPlan`. -/
def claimedIntegrationPlan (beamoffset rpump rprobe : ℝ) : QuadSpec :=
  if beamoffset = 0 then
    { twoD := false, lower := 0,
      upper := 20 / Real.sqrt (rpump * rpump + rprobe * rprobe),
      epsrel := some 1e-10, separateParts := true }
  else
    { twoD := true,
      lower := -(20 / Real.sqrt (rpump * rpump + rprobe * rprobe)),
      upper := 20 / Real.sqrt (rpump * rpump + rprobe * rprobe),
      epsrel := some 1e-6, separateParts := true }

/-- Counterexample to C4: for the arbitrary-precision (mpmath) backend with
beam offset 1 and rpump = rprobe = 1, the quadrature call issued by
`get_phase` is not the one the claim states (it passes no relative-error
tolerance, and its bound uses `(rprobe+beamoffset)^2` instead of
`rprobe^2`). -/
theorem mpmath_plan_differs_from_claim :
    integrationPlan Backend.mpmath 1 1 1 ≠ claimedIntegrationPlan 1 1 1 := by
  intro hEq
  have h := congrArg QuadSpec.epsrel hEq
  simp [integrationPlan, claimedIntegrationPlan] at h

/-- C4 (amended): the floating-point backend behaves exactly as the claim
states (radial from 0 to `U = 20/sqrt(rpump^2+rprobe^2)` at epsrel 1e-10,
real and imaginary parts independent; offset over `[-U, U]^2` at epsrel
1e-6); the arbitrary-precision backend instead integrates the complex
integrand as a whole with no epsrel, from 0 to the same `U` in the radial
case, and over `[-U', U']^2` with
`U' = 20/sqrt(rpump^2 + (rprobe+beamoffset)^2)` in the offset case. -/
theorem integration_plan_per_backend (beamoffset rpump rprobe : ℝ) :
    integrationPlan Backend.numpy beamoffset rpump rprobe
        = claimedIntegrationPlan beamoffset rpump rprobe
      ∧ integrationPlan Backend.mpmath beamoffset rpump rprobe
        = (if beamoffset = 0 then
            { twoD := false, lower := 0,
              upper := 20 / Real.sqrt (rpump * rpump + rprobe * rprobe),
              epsrel := none, separateParts := false }
          else
            { twoD := true,
              lower := -(20 / Real.sqrt (rpump * rpump
                + (rprobe + beamoffset) * (rprobe + beamoffset))),
              upper := 20 / Real.sqrt (rpump * rpump
                + (rprobe + beamoffset) * (rprobe + beamoffset)),
              epsrel := none, separateParts := false } : QuadSpec) := by
  unfold integrationPlan claimedIntegrationPlan
  exact ⟨rfl, rfl⟩

/-- The top-combined response subexpression of the compiled integrand when a
top heat path exists (fouriermodel.py line 65):
`(-M[1,1]/M[1,0]) / (1 + (M[1,1]*topM[1,0]) / (M[1,0]*topM[0,0]))`. -/
def topCombined (M T : Mat2) : ℂ :=
  (-M 1 1 / M 1 0) / (1 + ((M 1 1 * T 1 0) / (M 1 0 * T 0 0)))

/-- `Z_eff` as the claim states it:
`M[1,1]/M[1,0] / (1 + M[1,1]*M_top[1,0] / (M[1,0]*M_top[0,0]))`.
Written from the claim's words, to be compared with `topCombined`. -/
def claimedZeff (M T : Mat2) : ℂ :=
  M 1 1 / M 1 0 / (1 + M 1 1 * T 1 0 / (M 1 0 * T 0 0))

/-- Radial integrand with no top path (fouriermodel.py lines 61-62). -/
def LintegrandNoTop (rpump rprobe x : ℝ) (M : Mat2) : ℂ :=
  (1 / (2 * (Real.pi : ℂ))) * (x : ℂ)
    * Complex.exp (-(((rprobe : ℂ) * rprobe + (rpump : ℂ) * rpump) * x * x) / 8)
    * (-M 1 1 / M 1 0)

/-- Radial integrand when a top heat path exists (fouriermodel.py lines
64-65): the `-M[1,1]/M[1,0]` factor is replaced by `topCombined`. -/
def LintegrandTop (rpump rprobe x : ℝ) (M T : Mat2) : ℂ :=
  (1 / (2 * (Real.pi : ℂ))) * (x : ℂ)
    * Complex.exp (-(((rprobe : ℂ) * rprobe + (rpump : ℂ) * rpump) * x * x) / 8)
    * ((-M 1 1 / M 1 0) / (1 + ((M 1 1 * T 1 0) / (M 1 0 * T 0 0))))

/-- Concrete domain used by the C5 counterexample: a main composite matrix
already stored (the identity), and a top heat path holding one interface of
conductance 1. -/
def cDomain : DomainState :=
  { heat_path := [], top_heat_path := [Elem.interface 1], temperature := 300,
    substrate_defined := true, matrix := some 1, topmatrix := none }

/-- Counterexample to C5: `calc_top_transfer_matrix` overwrites the stored
main composite matrix with the top path's product and leaves `topmatrix`
unassigned, and the integrand's top-combined factor differs from the
claimed `Z_eff` at concrete matrices (it is its negation). -/
theorem calc_top_clobbers_main_matrix :
    (calc_top_transfer_matrix 0 0 0 cDomain).matrix ≠ cDomain.matrix
      ∧ (calc_top_transfer_matrix 0 0 0 cDomain).topmatrix = none
      ∧ topCombined !![9, 9; 1, 4] !![1, 5; 1, 5] ≠ claimedZeff !![9, 9; 1, 4] !![1, 5; 1, 5] := by
  refine ⟨?_, rfl, ?_⟩
  · intro hEq
    simp only [calc_top_transfer_matrix, cDomain, Elem.fourier, List.foldl_cons,
      List.foldl_nil, one_mul, Option.some.injEq] at hEq
    have h2 := congrFun (congrFun hEq 0) 1
    simp [Matrix.one_apply] at h2
  · unfold topCombined claimedZeff
    norm_num

/-- C5 (amended): `calc_top_transfer_matrix` computes the ordered product of
the top path's matrices but stores it in the domain's `matrix` attribute
(overwriting the main composite matrix) and never assigns `topmatrix`; the
compiled integrand's top-combined factor is
`(-M[1,1]/M[1,0]) / (1 + M[1,1]*M_top[1,0]/(M[1,0]*M_top[0,0]))` — the
negation of the claimed `Z_eff` — standing in the integrand where the
no-top case has `-M[1,1]/M[1,0]`. -/
theorem calc_top_transfer_matrix_behavior (eps eta omega rpump rprobe x : ℝ)
    (s : DomainState) (M T : Mat2) :
    (calc_top_transfer_matrix eps eta omega s).matrix
        = some ((s.top_heat_path.map (fun e => e.fourier eps eta omega)).prod)
      ∧ (calc_top_transfer_matrix eps eta omega s).topmatrix = s.topmatrix
      ∧ topCombined M T = -claimedZeff M T
      ∧ LintegrandTop rpump rprobe x M T
        = LintegrandNoTop rpump rprobe x M / (1 + M 1 1 * T 1 0 / (M 1 0 * T 0 0)) := by
  refine ⟨by simp [calc_top_transfer_matrix, foldl_mul_fourier], rfl, ?_, ?_⟩
  · unfold topCombined claimedZeff
    ring
  · unfold LintegrandTop LintegrandNoTop
    ring

/-- The keyword arguments a caller may pass to `Domain.set_layer_param`
(`none` = the key is absent from `**parameter`). -/
structure Overrides where
  cp : Option ℝ
  density : Option ℝ
  kxx : Option ℝ
  kyy : Option ℝ
  kxy : Option ℝ
  kzz : Option ℝ
  thickness : Option ℝ

/-- Body of `Domain.set_layer_param` (domain.py lines 52-58) applied to the
resolved layer, key checks in source order.  Line 57 writes the value
supplied under the key `kxy` into the field `kyy`
(`self.heat_path[index*2].kyy = parameter['kxy']`); no line of the method
reads a `thickness` key, so a `thickness` override is ignored. -/
def set_layer_param_overrides (l : LayerS) (p : Overrides) : LayerS :=
  let l1 := match p.cp with | some v => { l with cp := v } | none => l
  let l2 := match p.density with | some v => { l1 with density := v } | none => l1
  let l3 := match p.kxx with | some v => { l2 with kxx := v } | none => l2
  let l4 := match p.kyy with | some v => { l3 with kyy := v } | none => l3
  let l5 := match p.kxy with | some v => { l4 with kyy := v } | none => l4
  let l6 := match p.kzz with | some v => { l5 with kzz := v } | none => l5
  l6

/-- Concrete layer with pairwise-distinct field values. -/
def cLayer : LayerS := ⟨7, 1, 2, 3, 4, 5, 6, 300⟩

/-- Concrete overrides: kxy := 10, thickness := 42, nothing else. -/
def cOverride : Overrides := ⟨none, none, none, none, some 10, none, some 42⟩

/-- C6: evaluating `set_layer_param` at the failing input
`set_layer_param(slot, kxy=10, thickness=42)`: the value 10 supplied under
`kxy` lands in the field `kyy`, the field `kxy` keeps its prior value, and
the `thickness` override is ignored. -/
theorem set_layer_param_kxy_misdirected :
    set_layer_param_overrides cLayer cOverride = { cLayer with kyy := 10 }
      ∧ (set_layer_param_overrides cLayer cOverride).kxy = 4
      ∧ (set_layer_param_overrides cLayer cOverride).kyy = 10
      ∧ (set_layer_param_overrides cLayer cOverride).thickness = 7 :=
  ⟨rfl, rfl, rfl, rfl⟩

/-- Python list indexing: a nonnegative index must be < the length; a
negative index `i` refers to position `length + i` when that is >= 0; any
other index raises IndexError (`none`). -/
def pyIdx (n : Nat) (i : Int) : Option Nat :=
  if 0 ≤ i then (if i < (n : Int) then some i.toNat else none)
  else (if 0 ≤ i + n then some (i + n).toNat else none)

/-- Replace the element at (nonnegative) position `n` by its image under
`f`. -/
def setAt {α : Type} : List α → Nat → (α → α) → List α
  | [], _, _ => []
  | a :: as, 0, f => f a :: as
  | a :: as, n + 1, f => a :: setAt as n f

/-- `l[i].attr = v` on a Python list: resolve the index Python-style and
update the element; `none` models the IndexError raised before any
mutation. -/
def pyModify {α : Type} (l : List α) (i : Int) (f : α → α) : Option (List α) :=
  match pyIdx l.length i with
  | some k => some (setAt l k f)
  | none => none

/-- Assigning attribute `g` on a heat-path element: on a `LayerInterface`
it sets the conductance field; on a `Layer` Python silently creates a
dynamic attribute `g` (the `gAttr` slot). -/
def setGAttr (g : ℝ) : Elem → Elem
  | .layer l _ => .layer l (some g)
  | .interface _ => .interface g

/-- `Domain.set_interface_condu` (domain.py lines 60-61):
`self.heat_path[(index*2)-1].g = g`. -/
def set_interface_condu (hp : List Elem) (index : Int) (g : ℝ) : Option (List Elem) :=
  pyModify hp (index * 2 - 1) (setGAttr g)

/-- One key-guarded statement of `Domain.set_layer_param`, of the form
`if 'key' in parameter: self.heat_path[index*2].field = parameter['key']`:
when the key is absent the heat path is not indexed at all and passes
through unchanged; when it is present the element at Python index
`index*2` is updated, with IndexError (`none`) if that index is out of
range.  (Were the indexed element a `LayerInterface`, the assignment would
only create a dynamic attribute no computation reads; that inert case is
modelled as the identity on the stored fields.) -/
def guardedSet (index : Int) (v : Option ℝ) (f : ℝ → LayerS → LayerS)
    (hp : List Elem) : Option (List Elem) :=
  match v with
  | none => some hp
  | some x => pyModify hp (index * 2) (fun e => match e with
      | .layer l ga => .layer (f x l) ga
      | .interface g => .interface g)

/-- `Domain.set_layer_param` (domain.py lines 52-58): the six key-guarded
assignments in source order — the `heat_path[index*2]` access happens only
inside a branch whose key is present, an IndexError in one branch aborts
the rest, and no branch reads a `thickness` key (and line 57 writes the
`kxy` value into the field `kyy`). -/
def set_layer_param (hp : List Elem) (index : Int) (p : Overrides) : Option (List Elem) :=
  (((((guardedSet index p.cp (fun v l => { l with cp := v }) hp).bind
      (guardedSet index p.density (fun v l => { l with density := v }))).bind
      (guardedSet index p.kxx (fun v l => { l with kxx := v }))).bind
      (guardedSet index p.kyy (fun v l => { l with kyy := v }))).bind
      (guardedSet index p.kxy (fun v l => { l with kyy := v }))).bind
      (guardedSet index p.kzz (fun v l => { l with kzz := v }))

/-- Counterexample to C7: on a heat path holding a single substrate layer,
`set_interface_condu(0, 5)` resolves flat index -1 to the last element
Python-style: it raises no error and silently sets attribute `g` on that
layer, changing the heat path. -/
theorem set_interface_condu_slot_zero_wraps :
    set_interface_condu [Elem.layer cLayer none] 0 5
        = some [Elem.layer cLayer (some 5)]
      ∧ set_interface_condu [Elem.layer cLayer none] 0 5
        ≠ some [Elem.layer cLayer none]
      ∧ set_interface_condu [Elem.layer cLayer none] 0 5 ≠ none := by
  have he : set_interface_condu [Elem.layer cLayer none] 0 5
      = some [Elem.layer cLayer (some 5)] := rfl
  refine ⟨he, ?_, ?_⟩
  · intro h
    rw [he] at h
    simp at h
  · intro h
    rw [he] at h
    exact Option.noConfusion h

/-- Replacing the last element of a list through `setAt`. -/
theorem setAt_append_last {α : Type} (rest : List α) (a : α) (f : α → α) :
    setAt (rest ++ [a]) rest.length f = rest ++ [f a] := by
  induction rest with
  | nil => rfl
  | cons b bs ih => simp [setAt, ih]

/-- C7 (amended): `set_interface_condu` on a slot whose resolved flat index
is at or past the end of the heat path raises IndexError before any
mutation, leaving the path unchanged; `set_layer_param` on a past-the-end
layer slot raises IndexError (path unchanged) exactly when the overrides
name at least one of the keys {cp, density, kxx, kyy, kxy, kzz} — with no
such key (e.g. a thickness-only or empty override set) the heat path is
never indexed and the call returns silently, with no error and no change;
and `set_interface_condu(0, g)` resolves flat index -1 to the LAST element
of the heat path and silently sets attribute `g` on it — no error, and the
path is modified. -/
theorem slot_out_of_range_behavior (hp : List Elem) (i : Int) (g : ℝ) (p : Overrides) :
    ((hp.length : Int) ≤ 2 * i - 1 → set_interface_condu hp i g = none)
      ∧ ((hp.length : Int) ≤ 2 * i →
          (p.cp ≠ none ∨ p.density ≠ none ∨ p.kxx ≠ none
            ∨ p.kyy ≠ none ∨ p.kxy ≠ none ∨ p.kzz ≠ none) →
          set_layer_param hp i p = none)
      ∧ (p.cp = none → p.density = none → p.kxx = none → p.kyy = none →
          p.kxy = none → p.kzz = none → set_layer_param hp i p = some hp)
      ∧ ∀ (rest : List Elem) (l : LayerS) (ga : Option ℝ),
          hp = rest ++ [Elem.layer l ga] →
          set_interface_condu hp 0 g = some (rest ++ [Elem.layer l (some g)]) := by
  refine ⟨?_, ?_, ?_, ?_⟩
  · intro h
    have h0 : (0 : Int) ≤ i * 2 - 1 := by omega
    unfold set_interface_condu pyModify pyIdx
    rw [if_pos h0, if_neg (by omega)]
  · intro hlen hkey
    have hmod : ∀ f : Elem → Elem, pyModify hp (i * 2) f = none := by
      intro f
      unfold pyModify pyIdx
      rw [if_pos (by omega), if_neg (by omega)]
    obtain ⟨ocp, od, oxx, oyy, oxy, ozz, oth⟩ := p
    simp only at hkey
    cases ocp <;> cases od <;> cases oxx <;> cases oyy <;> cases oxy <;> cases ozz <;>
      simp_all [set_layer_param, guardedSet]
  · intro h1 h2 h3 h4 h5 h6
    simp [set_layer_param, guardedSet, h1, h2, h3, h4, h5, h6]
  · intro rest l ga hhp
    subst hhp
    have hidx : pyIdx (rest ++ [Elem.layer l ga]).length (0 * 2 - 1) = some rest.length := by
      unfold pyIdx
      rw [if_neg (by norm_num),
        if_pos (by simp only [List.length_append, List.length_cons, List.length_nil]; omega)]
      congr 1
      simp only [List.length_append, List.length_cons, List.length_nil]
      omega
    unfold set_interface_condu pyModify
    rw [hidx]
    show some (setAt (rest ++ [Elem.layer l ga]) rest.length (setGAttr g))
        = some (rest ++ [Elem.layer l (some g)])
    rw [setAt_append_last]
    rfl

/-- Concrete three-element heat path used by the C7 witness. -/
def hpw : List Elem := [Elem.layer cLayer none, Elem.interface 3, Elem.layer cLayer none]

/-- Witness for C7 (amended) at a concrete heat path: slot 2 is past the
end (IndexError for `set_interface_condu`, and for `set_layer_param` when a
handled key such as kxy is present), a thickness-only override at slot 2
returns silently with the path unchanged, and slot 0 silently mutates the
last element. -/
theorem slot_out_of_range_behavior_witness :
    set_interface_condu hpw 2 5 = none
      ∧ set_layer_param hpw 2 cOverride = none
      ∧ set_layer_param hpw 2 ⟨none, none, none, none, none, none, some 42⟩ = some hpw
      ∧ set_interface_condu hpw 0 5
        = some [Elem.layer cLayer none, Elem.interface 3, Elem.layer cLayer (some 5)] := by
  obtain ⟨h1, h2, _, h4⟩ := slot_out_of_range_behavior hpw 2 5 cOverride
  obtain ⟨_, _, h3, _⟩ :=
    slot_out_of_range_behavior hpw 2 5 ⟨none, none, none, none, none, none, some 42⟩
  exact ⟨h1 (by norm_num [hpw]), h2 (by norm_num [hpw]) (by simp [cOverride]),
    h3 rfl rfl rfl rfl rfl rfl,
    h4 [Elem.layer cLayer none, Elem.interface 3] cLayer none rfl⟩

/-- A material snapshot: the property fields `Layer.__init__` copies. -/
structure MatProps where
  cp : ℝ
  density : ℝ
  kxx : ℝ
  kyy : ℝ
  kxy : ℝ
  kzz : ℝ

/-- `Layer.__init__` (domain.py lines 126-135): a layer built from a
thickness, a temperature and a material snapshot. -/
def mkLayer (thickness temperature : ℝ) (m : MatProps) : LayerS :=
  ⟨thickness, m.cp, m.kxx, m.kyy, m.kxy, m.kzz, m.density, temperature⟩

/-- `Domain.add_substrate` (domain.py lines 25-31): if no substrate is
defined yet, append a `Layer` of thickness 0.01 (cm, i.e. 10 um) carrying
the material's snapshot at the domain temperature and set the flag;
otherwise print 'Substrate already defined!' and return normally.  The
result pairs the updated domain with the lines printed to stdout.  (The
`material == None` sapphire default of line 27 is not modelled: the
material argument here is the callable, evaluated at the temperature.) -/
def add_substrate (d : DomainState) (material : ℝ → MatProps) : DomainState × List String :=
  if d.substrate_defined = false then
    ({ d with
        heat_path := d.heat_path
          ++ [Elem.layer (mkLayer 0.01 d.temperature (material d.temperature)) none],
        substrate_defined := true }, [])
  else (d, ["Substrate already defined!"])

/-- A fresh `Domain(300)` (domain.py lines 9-12; `substrate_defined` is the
class attribute, initially False, and `matrix` / `topmatrix` are unset). -/
def freshDomain : DomainState :=
  { heat_path := [], top_heat_path := [], temperature := 300,
    substrate_defined := false, matrix := none, topmatrix := none }

/-- Concrete material snapshot used by witnesses. -/
def cMaterial : ℝ → MatProps := fun _ => ⟨1, 1, 1, 1, 0, 1⟩

/-- Counterexample to C8: on a domain whose substrate is already defined, a
second `add_substrate` returns the domain unchanged together with the
printed line 'Substrate already defined!' — a normal return, not a failure
the caller can distinguish from the call's result. -/
theorem add_substrate_second_call_only_prints :
    (add_substrate (add_substrate freshDomain cMaterial).1 cMaterial).1
        = (add_substrate freshDomain cMaterial).1
      ∧ (add_substrate (add_substrate freshDomain cMaterial).1 cMaterial).2
        = ["Substrate already defined!"] :=
  ⟨rfl, rfl⟩

/-- C8 (amended): on a domain with a substrate already defined,
`add_substrate` leaves the domain unchanged and prints
'Substrate already defined!', returning normally (the duplicate is silently
ignored, with no error distinguishable by the caller); on a fresh domain it
appends exactly one pseudo-layer of thickness 0.01 cm carrying the
substrate material's properties and marks the substrate as defined. -/
theorem add_substrate_behavior (d : DomainState) (m : ℝ → MatProps) :
    (d.substrate_defined = true →
        add_substrate d m = (d, ["Substrate already defined!"]))
      ∧ (d.substrate_defined = false →
        add_substrate d m
          = ({ d with
              heat_path := d.heat_path
                ++ [Elem.layer (mkLayer 0.01 d.temperature (m d.temperature)) none],
              substrate_defined := true }, [])) := by
  constructor
  · intro h
    unfold add_substrate
    rw [h]
    rfl
  · intro h
    unfold add_substrate
    rw [h]
    rfl

/-- Witness for C8 (amended): the already-defined and the fresh case at a
concrete domain and material. -/
theorem add_substrate_behavior_witness :
    add_substrate { freshDomain with substrate_defined := true } cMaterial
        = ({ freshDomain with substrate_defined := true },
            ["Substrate already defined!"])
      ∧ add_substrate freshDomain cMaterial
        = ({ freshDomain with
            heat_path := freshDomain.heat_path
              ++ [Elem.layer (mkLayer 0.01 freshDomain.temperature
                    (cMaterial freshDomain.temperature)) none],
            substrate_defined := true }, []) :=
  ⟨(add_substrate_behavior { freshDomain with substrate_defined := true } cMaterial).1 rfl,
    (add_substrate_behavior freshDomain cMaterial).2 rfl⟩

/-- A numpy double as `get_phase` sees it: a finite value or NaN.  IEEE
infinities are not modelled; `nan` stands for the non-finite results the
claim is about, and the one modelled operation that could produce an
infinity (float division by zero) is mapped to `nan` as well. -/
inductive FP where
  | num (x : ℝ)
  | nan

/-- Float division with NaN propagation. -/
def FP.div : FP → FP → FP
  | nan, _ => nan
  | _, nan => nan
  | num a, num b => if b = 0 then nan else num (a / b)

/-- Float multiplication with NaN propagation. -/
def FP.mul : FP → FP → FP
  | nan, _ => nan
  | _, nan => nan
  | num a, num b => num (a * b)

/-- Float subtraction with NaN propagation. -/
def FP.sub : FP → FP → FP
  | nan, _ => nan
  | _, nan => nan
  | num a, num b => num (a - b)

/-- `np.arctan` on a float: NaN maps to NaN. -/
def FP.arctanF : FP → FP
  | nan => nan
  | num x => num (Real.arctan x)

/-- Float `<`: every comparison against NaN is False. -/
def FP.lt : FP → FP → Bool
  | nan, _ => false
  | _, nan => false
  | num a, num b => decide (a < b)

/-- The float phase reduction of `get_phase` (fouriermodel.py lines 178 and
207-210) applied to the real and imaginary parts of the integration result:
`calc_phase = 180*np.arctan(im/re)/np.pi`, then the fold returning
`calc_phase` when `calc_phase < 0` and `calc_phase - 180` otherwise.  No
branch checks finiteness and there is no error channel. -/
def get_phase_float (re im : FP) : FP :=
  let cphase := FP.div (FP.mul (FP.num 180) (FP.arctanF (FP.div im re))) (FP.num Real.pi)
  if FP.lt cphase (FP.num 0) then cphase else FP.sub cphase (FP.num 180)

/-- Counterexample to C9: with a NaN real part (e.g. from hyperbolic
overflow inside the integrand), `get_phase` returns the value NaN to the
caller — `NaN < 0` is False, so the fold returns `NaN - 180 = NaN` — with
no failure surfaced. -/
theorem get_phase_returns_nan_silently :
    get_phase_float FP.nan (FP.num 0) = FP.nan := rfl

/-- C9 (amended): `get_phase` applies no degeneracy check: whenever the
integration result has a NaN component, the NaN propagates through the
division, `arctan` and the fold, and is returned as the phase with nothing
flagging the failure to the caller. -/
theorem get_phase_nan_propagates (re im : FP) :
    get_phase_float FP.nan im = FP.nan ∧ get_phase_float re FP.nan = FP.nan := by
  constructor
  · cases im <;> rfl
  · cases re <;> rfl

/-- One endpoint of a Python slice `l[a:b]`: a negative bound counts from
the end; bounds are clamped to `[0, len]`. -/
def pySliceIdx (n : Nat) (i : Int) : Nat :=
  if i < 0 then (max (i + n) 0).toNat else min i.toNat n

/-- Python list slicing `l[a:b]` (step 1). -/
def pySlice {α : Type} (l : List α) (a b : Int) : List α :=
  (l.take (pySliceIdx l.length b)).drop (pySliceIdx l.length a)

/-- The rows of `experimental_points` that the residual function of
`minimize` is run over (fouriermodel.py line 238):
`experimental_points[range[0]:range[1]]`. -/
def minimizeSelectedData (pts : List (ℝ × ℝ)) (r : Int × Int) : List (ℝ × ℝ) :=
  pySlice pts r.1 r.2

/-- The default `range` argument of `minimize` (fouriermodel.py line 212). -/
def minimizeDefaultRange : Int × Int := (0, -1)

/-- `l[0:-1]` drops exactly the last element. -/
theorem pySlice_zero_neg_one {α : Type} (l : List α) : pySlice l 0 (-1) = l.dropLast := by
  unfold pySlice pySliceIdx
  rw [if_pos (by norm_num : (-1 : Int) < 0), if_neg (by norm_num : ¬ (0 : Int) < 0)]
  have h1 : (max ((-1 : Int) + l.length) 0).toNat = l.length - 1 := by omega
  have h2 : min (Int.toNat 0) l.length = 0 := by simp
  rw [h1, h2, List.drop_zero, List.dropLast_eq_take]

/-- `l[0:len(l)]` keeps every element. -/
theorem pySlice_zero_length {α : Type} (l : List α) : pySlice l 0 (l.length : Int) = l := by
  unfold pySlice pySliceIdx
  rw [if_neg (by omega : ¬ ((l.length : Int)) < 0), if_neg (by norm_num : ¬ (0 : Int) < 0)]
  simp

/-- C10: with the default range argument (0, -1), `minimize` computes the
residuals only over `experimental_points[0:-1]` — the last experimental
point is silently excluded — while the explicit range `(0, len)` selects
every loaded point. -/
theorem minimize_default_range_excludes_last (pts : List (ℝ × ℝ)) :
    minimizeSelectedData pts minimizeDefaultRange = pts.dropLast
      ∧ minimizeSelectedData pts (0, (pts.length : Int)) = pts :=
  ⟨pySlice_zero_neg_one pts, pySlice_zero_length pts⟩

end

end PyFDTR
